import Mathlib

/-!
Shallow embedding of the MCP composition scanner of `src/analyze.py`
(`scan_repo_for_mcp_composition`, lines 371-498, and `get_composition_info`,
lines 500-549), together with models of the Python standard-library routines
they call: `json.loads` (restricted to the integer-numeric JSON fragment),
`json.dumps(..., indent=2)`, `ast.literal_eval` applied to a triple-quoted
literal, and Python's negative indexing and slicing.  Strings are
represented as `List Char`; the Walker's filesystem traversal, MIME
filtering and decoding are modelled by supplying the walk as a list of
directories, each a list of (path, decoded text) pairs.
-/

set_option maxRecDepth 100000

/-- JSON values as produced by Python's `json.loads`: objects keep key
insertion order (association list), numbers are restricted to the integer
fragment (no claim involves fractional numbers). -/
inductive Json where
  | null : Json
  | bool (b : Bool) : Json
  | num (n : Int) : Json
  | str (s : List Char) : Json
  | arr (xs : List Json) : Json
  | obj (kvs : List (List Char × Json)) : Json

mutual

/-- Structural equality on json values (Python `==` on parsed values). -/
def jsonEqb : Json → Json → Bool
  | .null, .null => true
  | .bool a, .bool b => a == b
  | .num a, .num b => a == b
  | .str a, .str b => a == b
  | .arr a, .arr b => jsonListEqb a b
  | .obj a, .obj b => kvListEqb a b
  | _, _ => false

/-- Elementwise equality of json lists. -/
def jsonListEqb : List Json → List Json → Bool
  | [], [] => true
  | x :: xs, y :: ys => jsonEqb x y && jsonListEqb xs ys
  | _, _ => false

/-- Elementwise equality of key-value lists. -/
def kvListEqb : List (List Char × Json) → List (List Char × Json) → Bool
  | [], [] => true
  | (k1, v1) :: xs, (k2, v2) :: ys => k1 == k2 && jsonEqb v1 v2 && kvListEqb xs ys
  | _, _ => false

end

/-- Characters removed by the scanner's normalization
`content.replace(" ", "").replace("\n", "").replace("\t", "")`
(analyze.py:425). -/
def stripWs (l : List Char) : List Char :=
  l.filter (fun c => !(c = ' ' || c = '\n' || c = '\t'))

/-- Index of the first occurrence of `pat` in a list (Python `str.find`,
with `none` standing for `-1`). -/
def findSub (pat : List Char) : List Char → Option Nat
  | [] => if pat = [] then some 0 else none
  | c :: t => if pat.isPrefixOf (c :: t) then some 0 else (findSub pat t).map (· + 1)

/-- First marker substring recognized by the scanner (analyze.py:426). -/
def marker1 : List Char := "\"mcpServers\":\x7b".data

/-- Second marker substring recognized by the scanner (analyze.py:426). -/
def marker2 : List Char := "\"mcp\":\x7b\"servers\":\x7b".data

/-- The gate `'\x7b'-marker in stripped or second marker in stripped`
(analyze.py:426); Python substring containment is find-succeeds. -/
def containsMarker (s : List Char) : Bool :=
  (findSub marker1 s).isSome || (findSub marker2 s).isSome

/-- Lines 428-430: `start = s.find(marker1); if start == -1:
start = s.find(marker2)`. -/
def findStart (s : List Char) : Option Nat :=
  match findSub marker1 s with
  | some i => some i
  | none => findSub marker2 s

/-- Python indexing `s[i]` with negative-index wraparound; `none` models an
IndexError. -/
def pyIndex (s : List Char) (i : Int) : Option Char :=
  if i < 0 then
    if i + s.length < 0 then none else s.get? (i + s.length).toNat
  else s.get? i.toNat

/-- Clamp a Python slice endpoint into [0, len]. -/
def pyBound (len : Nat) (i : Int) : Nat :=
  if i < 0 then (i + len).toNat else min i.toNat len

/-- Python slice `s[a:b]`. -/
def pySlice (s : List Char) (a b : Int) : List Char :=
  (s.take (pyBound s.length b)).drop (pyBound s.length a)

/-- Python slice `s[a:]`. -/
def pySliceFrom (s : List Char) (a : Int) : List Char :=
  s.drop (pyBound s.length a)

/-- Lines 431-436: the recorded match offset and the preceded-by-brace
shift.  Yields the shifted extraction start, or `none` when there is no
marker at all or the character immediately preceding the match is not an
opening brace (in which case the source code does nothing further with this
file). -/
def resolveStart (s : List Char) : Option Int :=
  match findStart s with
  | none => none
  | some start =>
    if pyIndex s ((start : Int) - 1) = some '\x7b' then some ((start : Int) - 1)
    else none

/-- Fuelled form of the brace-counting while-loop; the fuel only bounds the
iteration count so that the recursion is structural. -/
def braceLoopF (s : List Char) : Nat → Int → Int → Int → Option Int
  | 0, _, _, _ => none
  | fuel + 1, e, opens, closes =>
    if opens = closes then some e
    else if e + 1 < (s.length : Int) then
      let c := s.getD (e + 1).toNat '?'
      braceLoopF s fuel (e + 1) (if c = '\x7b' then opens + 1 else opens)
        (if c = '\x7d' then closes + 1 else closes)
    else none

/-- The brace-counting while-loop of analyze.py:441-460: from position `e`
with counters `opens`/`closes`, advance one character at a time until the
counters agree, returning the index of the matching closing brace, or
`none` when the end of the content is reached first.  The loop advances at
most `length + 1` times from any start position not below `-1`, so the
supplied fuel never runs out on the positions the scanner uses. -/
def braceLoop (s : List Char) (e opens closes : Int) : Option Int :=
  braceLoopF s (s.length + 2) e opens closes

/-- Whitespace characters skipped by Python's json decoder. -/
def jWs (c : Char) : Bool := c = ' ' || c = '\t' || c = '\n' || c = '\r'

/-- Drop leading json whitespace. -/
def skipWs (l : List Char) : List Char := l.dropWhile jWs

/-- Value of a hexadecimal digit. -/
def hexVal (c : Char) : Option Nat :=
  if '0' ≤ c ∧ c ≤ '9' then some (c.toNat - '0'.toNat)
  else if 'a' ≤ c ∧ c ≤ 'f' then some (c.toNat - 'a'.toNat + 10)
  else if 'A' ≤ c ∧ c ≤ 'F' then some (c.toNat - 'A'.toNat + 10)
  else none

/-- Decimal digit test. -/
def isDigit9 (c : Char) : Bool := '0' ≤ c && c ≤ '9'

/-- Json string escape table. -/
def escChar (e : Char) : Option Char :=
  if e = '"' then some '"'
  else if e = '\\' then some '\\'
  else if e = '/' then some '/'
  else if e = 'b' then some (Char.ofNat 8)
  else if e = 'f' then some (Char.ofNat 12)
  else if e = 'n' then some '\n'
  else if e = 'r' then some '\r'
  else if e = 't' then some '\t'
  else none

/-- Json string body scanner (the opening quote is already consumed),
mirroring CPython's `py_scanstring`: plain characters up to the closing
quote, backslash escapes, `\uXXXX` escapes, and errors on control
characters and unterminated input. -/
def parseJString (fuel : Nat) (l : List Char) : Except (List Char) (List Char × List Char) :=
  match fuel with
  | 0 => .error "fuel exhausted".data
  | fuel + 1 =>
    match l with
    | [] => .error "Unterminated string".data
    | c :: t =>
      if c = '"' then .ok ([], t)
      else if c = '\\' then
        match t with
        | [] => .error "Unterminated string".data
        | e :: t2 =>
          if e = 'u' then
            match t2 with
            | h1 :: h2 :: h3 :: h4 :: t3 =>
              match hexVal h1, hexVal h2, hexVal h3, hexVal h4 with
              | some a, some b, some c2, some d =>
                match parseJString fuel t3 with
                | .ok (r, rest) => .ok (Char.ofNat (((a * 16 + b) * 16 + c2) * 16 + d) :: r, rest)
                | .error m => .error m
              | _, _, _, _ => .error "Invalid hex escape".data
            | _ => .error "Invalid hex escape".data
          else
            match escChar e with
            | some c2 =>
              match parseJString fuel t2 with
              | .ok (r, rest) => .ok (c2 :: r, rest)
              | .error m => .error m
            | none => .error "Invalid escape".data
      else if c.toNat < 32 then .error "Invalid control character".data
      else
        match parseJString fuel t with
        | .ok (r, rest) => .ok (c :: r, rest)
        | .error m => .error m

/-- Accumulate a run of decimal digits. -/
def digitsVal (acc : Nat) : List Char → Nat × List Char
  | [] => (acc, [])
  | c :: t =>
    if isDigit9 c then digitsVal (acc * 10 + (c.toNat - '0'.toNat)) t else (acc, c :: t)

/-- Integer number literal (optional minus sign and a digit run). -/
def parseNumber (l : List Char) : Except (List Char) (Json × List Char) :=
  match l with
  | '-' :: c :: t =>
    if isDigit9 c then
      let p := digitsVal (c.toNat - '0'.toNat) t
      .ok (.num (-(p.1 : Int)), p.2)
    else .error "Expecting value".data
  | c :: t =>
    if isDigit9 c then
      let p := digitsVal (c.toNat - '0'.toNat) t
      .ok (.num (p.1 : Int), p.2)
    else .error "Expecting value".data
  | [] => .error "Expecting value".data

/-- Python dict insertion: an existing key keeps its position and updates
its value, a fresh key is appended. -/
def insertKV (kvs : List (List Char × Json)) (k : List Char) (v : Json) :
    List (List Char × Json) :=
  match kvs with
  | [] => [(k, v)]
  | (k0, v0) :: rest => if k0 = k then (k0, v) :: rest else (k0, v0) :: insertKV rest k v

mutual

/-- One json value (leading whitespace allowed), returning the value and
the unconsumed remainder. -/
def parseVal (fuel : Nat) (l : List Char) : Except (List Char) (Json × List Char) :=
  match fuel with
  | 0 => .error "fuel exhausted".data
  | fuel + 1 =>
    match skipWs l with
    | [] => .error "Expecting value".data
    | c :: t =>
      if c = '"' then
        match parseJString (fuel + 1) t with
        | .ok (r, rest) => .ok (.str r, rest)
        | .error m => .error m
      else if c = '\x7b' then parseObjBody fuel t
      else if c = '[' then parseArrBody fuel t
      else if c = 't' then
        if ['r', 'u', 'e'].isPrefixOf t then .ok (.bool true, t.drop 3)
        else .error "Expecting value".data
      else if c = 'f' then
        if ['a', 'l', 's', 'e'].isPrefixOf t then .ok (.bool false, t.drop 4)
        else .error "Expecting value".data
      else if c = 'n' then
        if ['u', 'l', 'l'].isPrefixOf t then .ok (.null, t.drop 3)
        else .error "Expecting value".data
      else if c = '-' || isDigit9 c then parseNumber (c :: t)
      else .error "Expecting value".data

/-- Object body, the opening brace already consumed. -/
def parseObjBody (fuel : Nat) (l : List Char) : Except (List Char) (Json × List Char) :=
  match fuel with
  | 0 => .error "fuel exhausted".data
  | fuel + 1 =>
    match skipWs l with
    | '\x7d' :: t => .ok (.obj [], t)
    | r => parseMembers fuel r []

/-- Object members; like CPython, a comma must be followed by a quoted
property name, so a trailing comma before the closing brace is an error. -/
def parseMembers (fuel : Nat) (l : List Char) (acc : List (List Char × Json)) :
    Except (List Char) (Json × List Char) :=
  match fuel with
  | 0 => .error "fuel exhausted".data
  | fuel + 1 =>
    match l with
    | '"' :: t =>
      match parseJString (fuel + 1) t with
      | .error m => .error m
      | .ok (key, r1) =>
        match skipWs r1 with
        | ':' :: r2 =>
          match parseVal fuel r2 with
          | .error m => .error m
          | .ok (v, r3) =>
            match skipWs r3 with
            | ',' :: r4 => parseMembers fuel (skipWs r4) (insertKV acc key v)
            | '\x7d' :: r4 => .ok (.obj (insertKV acc key v), r4)
            | _ => .error "Expecting comma delimiter".data
        | _ => .error "Expecting colon delimiter".data
    | _ => .error "Expecting property name enclosed in double quotes".data

/-- Array body, the opening bracket already consumed. -/
def parseArrBody (fuel : Nat) (l : List Char) : Except (List Char) (Json × List Char) :=
  match fuel with
  | 0 => .error "fuel exhausted".data
  | fuel + 1 =>
    match skipWs l with
    | ']' :: t => .ok (.arr [], t)
    | _ => parseItems fuel l []

/-- Array items; a comma must be followed by a value, so a trailing comma
before the closing bracket is an error. -/
def parseItems (fuel : Nat) (l : List Char) (acc : List Json) :
    Except (List Char) (Json × List Char) :=
  match fuel with
  | 0 => .error "fuel exhausted".data
  | fuel + 1 =>
    match parseVal fuel l with
    | .error m => .error m
    | .ok (v, r1) =>
      match skipWs r1 with
      | ',' :: r2 => parseItems fuel r2 (acc ++ [v])
      | ']' :: r2 => .ok (.arr (acc ++ [v]), r2)
      | _ => .error "Expecting comma delimiter".data

end

/-- Model of Python `json.loads` on the integer-numeric JSON fragment:
strict grammar, no trailing commas, no comments, whole input must be
consumed. -/
def json_loads (l : List Char) : Except (List Char) Json :=
  match parseVal (l.length + 1) l with
  | .error m => .error m
  | .ok (v, rest) => if (skipWs rest).isEmpty then .ok v else .error "Extra data".data

/-- Python simple string-literal escape table (the escapes a triple-quoted
literal resolves); an unlisted escape keeps both characters, as Python
does. -/
def escCharPy (e : Char) : Option Char :=
  if e = Char.ofNat 39 then some (Char.ofNat 39)
  else if e = '"' then some '"'
  else if e = '\\' then some '\\'
  else if e = 'n' then some '\n'
  else if e = 't' then some '\t'
  else if e = 'r' then some '\r'
  else if e = 'b' then some (Char.ofNat 8)
  else if e = 'f' then some (Char.ofNat 12)
  else if e = 'v' then some (Char.ofNat 11)
  else if e = '0' then some (Char.ofNat 0)
  else none

/-- Escape-sequence interpretation of a Python string literal body; a bare
backslash at the end of the payload would escape the closing quote and is
an error. -/
def pyEscapes : List Char → Except (List Char) (List Char)
  | [] => .ok []
  | '\\' :: [] => .error "EOL while scanning string literal".data
  | '\\' :: e :: t =>
    match escCharPy e with
    | some c => (pyEscapes t).map (c :: ·)
    | none => (pyEscapes t).map (fun r => '\\' :: e :: r)
  | c :: t => (pyEscapes t).map (c :: ·)

/-- Model of `ast.literal_eval` applied to the fragment wrapped in triple
quotes (analyze.py:479-481): fails when the payload contains a triple quote
or ends in a bare backslash, otherwise resolves escape sequences; on
backslash-free input it is the identity. -/
def pyTripleEval (l : List Char) : Except (List Char) (List Char) :=
  if (findSub [Char.ofNat 39, Char.ofNat 39, Char.ofNat 39] l).isSome then
    .error "invalid syntax".data
  else pyEscapes l

/-- Decimal digits of a natural number, most significant first (fuelled so
that the recursion is structural; the fuel dominates the digit count). -/
def natToCharsAux : Nat → Nat → List Char → List Char
  | 0, _, acc => acc
  | fuel + 1, n, acc =>
    let d := Char.ofNat (n % 10 + '0'.toNat)
    if n < 10 then d :: acc else natToCharsAux fuel (n / 10) (d :: acc)

/-- Decimal representation of a natural number. -/
def natToChars (n : Nat) : List Char := natToCharsAux (n + 1) n []

/-- Decimal representation of an integer. -/
def intToChars (i : Int) : List Char :=
  if i < 0 then '-' :: natToChars i.natAbs else natToChars i.toNat

/-- Lowercase hex digit. -/
def hexDigit (n : Nat) : Char :=
  if n < 10 then Char.ofNat (n + '0'.toNat) else Char.ofNat (n - 10 + 'a'.toNat)

/-- Escaping of one character by Python `json.dumps` with
`ensure_ascii = True`. -/
def dumpEscape (c : Char) : List Char :=
  if c = '"' then ['\\', '"']
  else if c = '\\' then ['\\', '\\']
  else if c = '\n' then ['\\', 'n']
  else if c = '\t' then ['\\', 't']
  else if c = '\r' then ['\\', 'r']
  else if c.toNat = 8 then ['\\', 'b']
  else if c.toNat = 12 then ['\\', 'f']
  else if c.toNat < 32 || c.toNat > 126 then
    ['\\', 'u', hexDigit (c.toNat / 4096 % 16), hexDigit (c.toNat / 256 % 16),
      hexDigit (c.toNat / 16 % 16), hexDigit (c.toNat % 16)]
  else [c]

/-- A quoted, escaped json string as written by `json.dumps`. -/
def quoteChars (s : List Char) : List Char :=
  '"' :: (s.map dumpEscape).flatten ++ ['"']

/-- Indentation run. -/
def spacesN (n : Nat) : List Char := List.replicate n ' '

mutual

/-- Python `json.dumps(v, indent=2)` at nesting level `lvl`. -/
def dumpVal : Json → Nat → List Char
  | .null, _ => "null".data
  | .bool true, _ => "true".data
  | .bool false, _ => "false".data
  | .num n, _ => intToChars n
  | .str s, _ => quoteChars s
  | .arr [], _ => "[]".data
  | .arr (x :: xs), lvl =>
    '[' :: '\n' :: dumpItemsD (x :: xs) (lvl + 1) ++ ('\n' :: spacesN (2 * lvl) ++ [']'])
  | .obj [], _ => "\x7b\x7d".data
  | .obj (kv :: kvs), lvl =>
    '\x7b' :: '\n' :: dumpPairsD (kv :: kvs) (lvl + 1) ++ ('\n' :: spacesN (2 * lvl) ++ ['\x7d'])

/-- Comma-and-newline separated array items at level `lvl`. -/
def dumpItemsD : List Json → Nat → List Char
  | [], _ => []
  | [x], lvl => spacesN (2 * lvl) ++ dumpVal x lvl
  | x :: y :: rest, lvl =>
    spacesN (2 * lvl) ++ dumpVal x lvl ++ (',' :: '\n' :: dumpItemsD (y :: rest) lvl)

/-- Comma-and-newline separated object members at level `lvl`. -/
def dumpPairsD : List (List Char × Json) → Nat → List Char
  | [], _ => []
  | [(k, v)], lvl => spacesN (2 * lvl) ++ quoteChars k ++ (':' :: ' ' :: dumpVal v lvl)
  | (k, v) :: p :: rest, lvl =>
    spacesN (2 * lvl) ++ quoteChars k ++ (':' :: ' ' :: dumpVal v lvl) ++
      (',' :: '\n' :: dumpPairsD (p :: rest) lvl)

end

/-- Model of Python `json.dumps(v, indent=2)`. -/
def jsonDumps2 (v : Json) : List Char := dumpVal v 0

/-- The error-details dictionary built by both functions (`repo_path`,
`filename`, `json_config` keys are absent in some of the shapes, modelled
with `Option`). -/
structure ScanError where
  error_message : List Char
  filename : Option String
  json_config : Option (List Char)
  repo_path : Option String
deriving DecidableEq

/-- The success dictionary returned by `get_composition_info`. -/
structure RuntimeInfo where
  server : List Char
  server_type : List Char
  command : Json
  args : Json

/-- Outcome of the Locator on one stripped file content. -/
inductive LocateResult where
  | skip : LocateResult
  | unclosed (part : List Char) : LocateResult
  | found (frag : List Char) : LocateResult
deriving DecidableEq

/-- The Locator stage (analyze.py:426-463) on one file's stripped content:
marker gate, marker search, preceded-by-brace shift, brace matching.
`skip` covers both a missing marker and a marker whose preceding character
is not an opening brace. -/
def locateFragment (s : List Char) : LocateResult :=
  if containsMarker s then
    match resolveStart s with
    | none => .skip
    | some start =>
      match braceLoop s start 1 0 with
      | none => .unclosed (pySliceFrom s start)
      | some e => .found (pySlice s start (e + 1))
  else .skip

/-- The Recovery Parser stage (analyze.py:470-487): strict parse, then
triple-quoted `literal_eval` plus reparse; the surfaced message is the
second attempt's exception text. -/
def parseFragment (frag : List Char) : Except (List Char) Json :=
  match json_loads frag with
  | .ok v => .ok v
  | .error _ =>
    match pyTripleEval frag with
    | .error m => .error m
    | .ok raw =>
      match json_loads raw with
      | .ok v => .ok v
      | .error m => .error m

/-- The pair of outer-scope variables `(mcp_composition, error_details)`. -/
structure ScanState where
  comp : Option Json
  err : Option ScanError

/-- Body of the inner `for file in files` loop (analyze.py:392-491) for one
file.  Returns the updated state and whether the file loop is exited; the
`break` at line 491 is only reached inside `if error_details is None:`, so
the unclosed-bracket error path records its error and falls through to the
next file of the same directory. -/
def fileStep (repoPath filePath : String) (content : List Char) (st : ScanState) :
    ScanState × Bool :=
  let s := stripWs content
  if containsMarker s then
    match resolveStart s with
    | none => (st, false)
    | some start =>
      match braceLoop s start 1 0 with
      | none =>
        (⟨none, some ⟨"Malformed JSON: Unclosed brackets in file".data, some filePath,
          some (pySliceFrom s start), some repoPath⟩⟩, false)
      | some e =>
        if st.err = none then
          match parseFragment (pySlice s start (e + 1)) with
          | .ok v => (⟨some v, st.err⟩, true)
          | .error m =>
            (⟨none, some ⟨"Failed to parse MCP composition JSON: ".data ++ m, some filePath,
              some content, some repoPath⟩⟩, true)
        else (st, false)
  else (st, false)

/-- The `for file in files` loop with its `break`. -/
def dirFold (repoPath : String) (files : List (String × List Char)) (st : ScanState) :
    ScanState :=
  match files with
  | [] => st
  | (p, c) :: rest =>
    match fileStep repoPath p c st with
    | (st2, true) => st2
    | (st2, false) => dirFold repoPath rest st2

/-- The outer `for root, dirs, files in os.walk(...)` loop with its
post-directory short-circuit check (analyze.py:494-496). -/
def walkFold (repoPath : String) (dirs : List (List (String × List Char)))
    (st : ScanState) : ScanState :=
  match dirs with
  | [] => st
  | d :: rest =>
    let st2 := dirFold repoPath d st
    if st2.comp.isSome || st2.err.isSome then st2
    else walkFold repoPath rest st2

/-- `scan_repo_for_mcp_composition` (analyze.py:371-498); the repository
tree is modelled as the walk's directory listing of decoded text files. -/
def scan_repo_for_mcp_composition (repoPath : String)
    (walk : List (List (String × List Char))) : Option Json × Option ScanError :=
  let st := walkFold repoPath walk ⟨none, none⟩
  (st.comp, st.err)

/-- Python truthiness of a json value (`if not composition`). -/
def pyFalsy : Json → Bool
  | .null => true
  | .bool b => !b
  | .num n => n == 0
  | .str s => s.isEmpty
  | .arr xs => xs.isEmpty
  | .obj kvs => kvs.isEmpty

/-- First value stored under a key (Python dict lookup on the insertion
ordered association list). -/
def lookupKey (kvs : List (List Char × Json)) (k : List Char) : Option Json :=
  match kvs with
  | [] => none
  | (k0, v) :: rest => if k0 = k then some v else lookupKey rest k

/-- Python `key in x` for a string key: dict key test, list membership,
substring test on strings; TypeError (modelled as `.error`) otherwise. -/
def pyIn (k : List Char) : Json → Except (List Char) Bool
  | .obj kvs => .ok (lookupKey kvs k).isSome
  | .arr xs => .ok (xs.any (fun x => jsonEqb x (.str k)))
  | .str s => .ok (findSub k s).isSome
  | _ => .error "argument is not iterable".data

/-- Python subscript `x[key]` for a string key: dict lookup (KeyError when
absent), TypeError on any non-dict. -/
def pySubscript (v : Json) (k : List Char) : Except (List Char) Json :=
  match v with
  | .obj kvs =>
    match lookupKey kvs k with
    | some r => .ok r
    | none => .error ("KeyError: ".data ++ k)
  | _ => .error "indices must be integers".data

/-- Python `x.get(key, default)`: AttributeError on any non-dict. -/
def pyDictGet (v : Json) (k : List Char) (dflt : Json) : Except (List Char) Json :=
  match v with
  | .obj kvs => .ok ((lookupKey kvs k).getD dflt)
  | _ => .error "object has no attribute get".data

/-- Python `x.endswith(suffix)`: AttributeError on any non-string. -/
def pyEndswith (v : Json) (suf : List Char) : Except (List Char) Bool :=
  match v with
  | .str s => .ok (suf.isSuffixOf s)
  | _ => .error "object has no attribute endswith".data

/-- Body of `get_composition_info` (analyze.py:509-543) before the
catch-all `except`; `.error` models a Python exception escaping the
body. -/
def get_composition_info_body (composition : Json) :
    Except (List Char) (Option RuntimeInfo × Option ScanError) :=
  if pyFalsy composition then
    .ok (none, some ⟨"Empty composition provided".data, none, none, none⟩)
  else
    match pyIn "mcpServers".data composition with
    | .error m => .error m
    | .ok false =>
      .ok (none, some ⟨"Missing 'mcpServers' key in composition".data, none,
        some (jsonDumps2 composition), none⟩)
    | .ok true =>
      match pySubscript composition "mcpServers".data with
      | .error m => .error m
      | .ok servers =>
        match servers with
        | .obj [] =>
          .ok (none, some ⟨"No servers found in 'mcpServers' object".data, none,
            some (jsonDumps2 composition), none⟩)
        | .obj ((serverName, serverInfo) :: _) =>
          match pyDictGet serverInfo "command".data (.str []) with
          | .error m => .error m
          | .ok command =>
            match pyEndswith command "uv".data with
            | .error m => .error m
            | .ok endsUv =>
              let serverType := if endsUv then "uv".data
                else if jsonEqb command (.str "npx".data) then "npx".data
                else "unknown".data
              match pyDictGet serverInfo "args".data (.arr []) with
              | .error m => .error m
              | .ok args => .ok (some ⟨serverName, serverType, command, args⟩, none)
        | _ => .error "object has no attribute items".data

/-- `get_composition_info` (analyze.py:500-549) with its catch-all
exception handler converting any fault into a typed error value. -/
def get_composition_info (composition : Json) : Option RuntimeInfo × Option ScanError :=
  match get_composition_info_body composition with
  | .ok r => r
  | .error m =>
    (none, some ⟨"Exception analyzing composition: ".data ++ m, none,
      some (if pyFalsy composition then "None".data else jsonDumps2 composition), none⟩)

/-- Claim C7's classification rule, stated from the specification's words:
"uv" iff the command ends with the substring "uv", "npx" iff it equals
exactly "npx", "unknown" otherwise; compared against the code's
classification in the C7 theorem. -/
def classifySpec (cmd : List Char) : List Char :=
  if "uv".data.isSuffixOf cmd then "uv".data
  else if cmd = "npx".data then "npx".data
  else "unknown".data

/-- Contribution of one character to the running brace balance. -/
def delta (c : Char) : Int :=
  if c = '\x7b' then 1 else if c = '\x7d' then -1 else 0

/-- Brace balance of a string: opening minus closing braces. -/
def bal : List Char → Int
  | [] => 0
  | c :: t => delta c + bal t

/-- List-level reformulation of the brace loop: the number of characters
consumed before the running balance `b` returns to zero (checked before
each character is consumed), `none` when the input runs out first. -/
def scanSteps (b : Int) : List Char → Option Nat
  | [] => if b = 0 then some 0 else none
  | c :: t => if b = 0 then some 0 else (scanSteps (b + delta c) t).map (· + 1)

lemma scanSteps_zero (l : List Char) : scanSteps 0 l = some 0 := by
  cases l <;> simp [scanSteps]

lemma braceLoopF_eq_scanSteps (s : List Char) (fuel : Nat) :
    ∀ (e op cl : Int), -1 ≤ e → ((s.length : Int) - e).toNat + 1 ≤ fuel →
    braceLoopF s fuel e op cl =
      (scanSteps (op - cl) (s.drop (e + 1).toNat)).map (fun n => e + (n : Int)) := by
  induction fuel with
  | zero => intro e op cl he hf; omega
  | succ f ih =>
    intro e op cl he hf
    by_cases hoc : op = cl
    · rw [braceLoopF]
      simp [hoc, scanSteps_zero]
    · rw [braceLoopF]
      by_cases hlt : e + 1 < (s.length : Int)
      · have hidx : (e + 1).toNat < s.length := by omega
        have hdrop : s.drop (e + 1).toNat = s[(e + 1).toNat] :: s.drop ((e + 1).toNat + 1) :=
          List.drop_eq_getElem_cons hidx
        have hgetD : s.getD (e + 1).toNat '?' = s[(e + 1).toNat] :=
          List.getD_eq_getElem s '?' hidx
        have htn : (e + 1 + 1).toNat = (e + 1).toNat + 1 := by omega
        have hrec := ih (e + 1)
          (if s[(e + 1).toNat] = '\x7b' then op + 1 else op)
          (if s[(e + 1).toNat] = '\x7d' then cl + 1 else cl)
          (by omega) (by omega)
        simp only [hoc, if_false, hlt, if_true, hgetD]
        rw [hrec, htn, hdrop, scanSteps]
        have hb : op - cl ≠ 0 := sub_ne_zero_of_ne hoc
        have hdel : (if s[(e + 1).toNat] = '\x7b' then op + 1 else op) -
            (if s[(e + 1).toNat] = '\x7d' then cl + 1 else cl) =
            op - cl + delta s[(e + 1).toNat] := by
          unfold delta
          split_ifs with h1 h2 h3 <;> first
            | omega
            | (exact absurd (h1 ▸ h2) (by decide))
        rw [hdel]
        simp only [hb, if_false]
        cases scanSteps (op - cl + delta s[(e + 1).toNat]) (s.drop ((e + 1).toNat + 1)) with
        | none => simp
        | some n => simp; omega
      · have hnil : s.drop (e + 1).toNat = [] := by
          apply List.drop_eq_nil_of_le
          omega
        have hb : op - cl ≠ 0 := sub_ne_zero_of_ne hoc
        simp [hoc, hlt, hnil, scanSteps, hb]

lemma braceLoop_eq_scanSteps (s : List Char) (e op cl : Int) (he : -1 ≤ e) :
    braceLoop s e op cl =
      (scanSteps (op - cl) (s.drop (e + 1).toNat)).map (fun n => e + (n : Int)) :=
  braceLoopF_eq_scanSteps s (s.length + 2) e op cl he (by omega)

lemma scanSteps_of_no_zero (l : List Char) (b : Int)
    (h : ∀ p, p <+: l → b + bal p ≠ 0) : scanSteps b l = none := by
  induction l generalizing b with
  | nil =>
    have hb := h [] List.nil_prefix
    simp [bal] at hb
    simp [scanSteps, hb]
  | cons c t ih =>
    have hb : b ≠ 0 := by
      have := h [] List.nil_prefix
      simpa [bal] using this
    rw [scanSteps]
    simp only [hb, if_false]
    rw [ih (b + delta c) ?_]
    · rfl
    · intro p hp
      have := h (c :: p) (List.cons_prefix_cons.mpr ⟨rfl, hp⟩)
      simpa [bal, add_assoc] using this

lemma scanSteps_append (u v : List Char) (b : Int)
    (h : ∀ p, p <+: u → p ≠ u → b + bal p ≠ 0) :
    scanSteps b (u ++ v) = (scanSteps (b + bal u) v).map (· + u.length) := by
  induction u generalizing b with
  | nil =>
    simp only [List.nil_append, bal, add_zero, List.length_nil]
    cases scanSteps b v <;> simp
  | cons c t ih =>
    have hb : b ≠ 0 := by
      have := h [] List.nil_prefix (by simp)
      simpa [bal] using this
    rw [List.cons_append, scanSteps]
    simp only [hb, if_false]
    rw [ih (b + delta c) ?_]
    · have hbal : b + delta c + bal t = b + bal (c :: t) := by simp [bal]; ring
      rw [hbal]
      cases scanSteps (b + bal (c :: t)) v with
      | none => simp
      | some n => simp; omega
    · intro p hp hne
      have := h (c :: p) (List.cons_prefix_cons.mpr ⟨rfl, hp⟩) (by simp [hne])
      simpa [bal, add_assoc] using this

lemma containsMarker_of_findStart (s : List Char) (k : Nat) (h : findStart s = some k) :
    containsMarker s = true := by
  unfold findStart at h
  unfold containsMarker
  cases h1 : findSub marker1 s with
  | some i => simp [h1]
  | none =>
    rw [h1] at h
    simp at h
    simp [h1, h]

lemma fileStep_eq_locate (r p : String) (c : List Char) (st : ScanState) :
    fileStep r p c st =
      match locateFragment (stripWs c) with
      | .skip => (st, false)
      | .unclosed part =>
        (⟨none, some ⟨"Malformed JSON: Unclosed brackets in file".data, some p, some part,
          some r⟩⟩, false)
      | .found frag =>
        if st.err = none then
          match parseFragment frag with
          | .ok v => (⟨some v, st.err⟩, true)
          | .error m =>
            (⟨none, some ⟨"Failed to parse MCP composition JSON: ".data ++ m, some p,
              some c, some r⟩⟩, true)
        else (st, false) := by
  unfold fileStep
  cases hm : containsMarker (stripWs c)
  · have hl : locateFragment (stripWs c) = .skip := by
      unfold locateFragment; simp [hm]
    rw [hl]; simp [hm]
  · cases hr : resolveStart (stripWs c) with
    | none =>
      have hl : locateFragment (stripWs c) = .skip := by
        unfold locateFragment; simp [hm, hr]
      rw [hl]; simp [hm, hr]
    | some start =>
      cases hb : braceLoop (stripWs c) start 1 0 with
      | none =>
        have hl : locateFragment (stripWs c) =
            .unclosed (pySliceFrom (stripWs c) start) := by
          unfold locateFragment; simp [hm, hr, hb]
        rw [hl]; simp [hm, hr, hb]
      | some e =>
        have hl : locateFragment (stripWs c) =
            .found (pySlice (stripWs c) start (e + 1)) := by
          unfold locateFragment; simp [hm, hr, hb]
        rw [hl]; simp [hm, hr, hb]

lemma fileStep_break_some (r p : String) (c : List Char) (st st2 : ScanState)
    (h : fileStep r p c st = (st2, true)) : st2.comp.isSome ∨ st2.err.isSome := by
  rw [fileStep_eq_locate] at h
  cases hl : locateFragment (stripWs c) with
  | skip => rw [hl] at h; simp at h
  | unclosed part => rw [hl] at h; simp at h
  | found frag =>
    rw [hl] at h
    dsimp only at h
    by_cases he : st.err = none
    · rw [if_pos he] at h
      cases hp : parseFragment frag with
      | ok v => rw [hp] at h; cases h; left; rfl
      | error m => rw [hp] at h; cases h; right; rfl
    · rw [if_neg he] at h; simp at h

lemma dirFold_single (r p : String) (c : List Char) (st : ScanState) :
    dirFold r [(p, c)] st = (fileStep r p c st).1 := by
  unfold dirFold
  cases hf : fileStep r p c st with
  | mk st2 brk => cases brk <;> simp [dirFold]

lemma scan_one_dir (r : String) (d : List (String × List Char)) :
    scan_repo_for_mcp_composition r [d] =
      ((dirFold r d ⟨none, none⟩).comp, (dirFold r d ⟨none, none⟩).err) := by
  unfold scan_repo_for_mcp_composition walkFold
  dsimp only
  split
  · rfl
  · simp [walkFold]

lemma scan_single (r p : String) (c : List Char) :
    scan_repo_for_mcp_composition r [[(p, c)]] =
      ((fileStep r p c ⟨none, none⟩).1.comp, (fileStep r p c ⟨none, none⟩).1.err) := by
  rw [scan_one_dir, dirFold_single]

lemma findStart_nil : findStart ([] : List Char) = none := rfl

lemma resolveStart_of_pre (s : List Char) (k : Nat) (hfind : findStart s = some k)
    (hpre : pyIndex s ((k : Int) - 1) = some '\x7b') :
    resolveStart s = some ((k : Int) - 1) := by
  unfold resolveStart
  rw [hfind]
  dsimp only
  rw [if_pos hpre]

lemma resolveStart_of_not_pre (s : List Char) (k : Nat) (hfind : findStart s = some k)
    (hpre : pyIndex s ((k : Int) - 1) ≠ some '\x7b') :
    resolveStart s = none := by
  unfold resolveStart
  rw [hfind]
  dsimp only
  rw [if_neg hpre]

lemma locateFragment_skip_of_resolve_none (s : List Char) (h : resolveStart s = none) :
    locateFragment s = .skip := by
  unfold locateFragment
  rw [h]
  simp

/-- C1 (counterexample): a file whose stripped content contains the marker
`"mcpServers":` + open brace, but where the character immediately preceding
the match is not an opening brace, silently contributes neither a result
nor an error, contradicting the claim that a marker-containing file never
silently contributes no result. -/
theorem claim_C1_counterexample :
    scan_repo_for_mcp_composition "repo" [[("readme.md", "a\"mcpServers\":\x7b\x7d".data)]] =
      (none, none) ∧
    containsMarker (stripWs "a\"mcpServers\":\x7b\x7d".data) = true :=
  ⟨rfl, rfl⟩

/-- C1 (amended): the Locator records the match start offset, but the shift
and the extraction both happen only when the character immediately
preceding the match is an opening brace; in that case, from the shifted
start, it always either returns the enclosing substring
`content[start:end+1]` or the unterminated-bracket outcome; when the
preceding character is not an opening brace, the marker-containing file
silently contributes no result and no error. -/
theorem claim_C1_amended (repoPath filePath : String) (content : List Char) (k : Nat)
    (hfind : findStart (stripWs content) = some k) :
    (pyIndex (stripWs content) ((k : Int) - 1) = some '\x7b' →
      (∃ e, braceLoop (stripWs content) ((k : Int) - 1) 1 0 = some e ∧
        locateFragment (stripWs content) =
          .found (pySlice (stripWs content) ((k : Int) - 1) (e + 1))) ∨
      locateFragment (stripWs content) =
        .unclosed (pySliceFrom (stripWs content) ((k : Int) - 1))) ∧
    (pyIndex (stripWs content) ((k : Int) - 1) ≠ some '\x7b' →
      fileStep repoPath filePath content ⟨none, none⟩ = (⟨none, none⟩, false)) := by
  constructor
  · intro hpre
    have hres := resolveStart_of_pre _ _ hfind hpre
    have hcm := containsMarker_of_findStart _ _ hfind
    cases hb : braceLoop (stripWs content) ((k : Int) - 1) 1 0 with
    | none =>
      right
      unfold locateFragment
      simp [hcm, hres, hb]
    | some e =>
      left
      refine ⟨e, rfl, ?_⟩
      unfold locateFragment
      simp [hcm, hres, hb]
  · intro hpre
    have hres := resolveStart_of_not_pre _ _ hfind hpre
    rw [fileStep_eq_locate, locateFragment_skip_of_resolve_none _ hres]

/-- C1 (witness): at a concrete file whose marker is preceded by an opening
brace, the amended theorem produces the located-or-unterminated
disjunction. -/
theorem claim_C1_witness :
    (∃ e, braceLoop (stripWs "\x7b\"mcpServers\":\x7b\x7d\x7d".data) ((1 : Int) - 1) 1 0 =
        some e ∧
      locateFragment (stripWs "\x7b\"mcpServers\":\x7b\x7d\x7d".data) =
        .found (pySlice (stripWs "\x7b\"mcpServers\":\x7b\x7d\x7d".data) ((1 : Int) - 1)
          (e + 1))) ∨
    locateFragment (stripWs "\x7b\"mcpServers\":\x7b\x7d\x7d".data) =
      .unclosed (pySliceFrom (stripWs "\x7b\"mcpServers\":\x7b\x7d\x7d".data)
        ((1 : Int) - 1)) :=
  (claim_C1_amended "repo" "f.md" "\x7b\"mcpServers\":\x7b\x7d\x7d".data 1 (by rfl)).1 (by rfl)

lemma findStart_ne_nil (s : List Char) (k : Nat) (h : findStart s = some k) : s ≠ [] := by
  intro hnil
  subst hnil
  rw [findStart_nil] at h
  cases h

lemma pyIndex_neg_one (s : List Char) (h : s ≠ []) : pyIndex s (-1) = s.getLast? := by
  have hl : 0 < s.length := List.length_pos.mpr h
  unfold pyIndex
  rw [if_pos (by norm_num : (-1 : Int) < 0)]
  rw [if_neg (by omega : ¬((-1 : Int) + s.length < 0))]
  have ht : ((-1 : Int) + s.length).toNat = s.length - 1 := by omega
  rw [ht, List.get?_eq_getElem?, List.getLast?_eq_getElem?]

/-- C10: when the first marker match starts at offset 0 of the stripped
content, the preceding-character check indexes position -1, selecting the
last character of the stripped content: the file is treated as
marker-preceded-by-brace exactly when its stripped content ends with an
opening brace (and then the extraction start becomes -1); otherwise the
file produces neither a match nor an error even though it contains a
marker. -/
theorem claim_C10_negative_index (repoPath filePath : String) (content : List Char)
    (hfind : findStart (stripWs content) = some 0) :
    (resolveStart (stripWs content) = some (-1) ↔
      (stripWs content).getLast? = some '\x7b') ∧
    ((stripWs content).getLast? ≠ some '\x7b' →
      fileStep repoPath filePath content ⟨none, none⟩ = (⟨none, none⟩, false)) := by
  have hne := findStart_ne_nil _ _ hfind
  have hcast : ((0 : Nat) : Int) - 1 = -1 := by norm_num
  have hidx : pyIndex (stripWs content) (((0 : Nat) : Int) - 1) = (stripWs content).getLast? := by
    rw [hcast, pyIndex_neg_one _ hne]
  constructor
  · constructor
    · intro hres
      by_contra hlast
      rw [resolveStart_of_not_pre _ _ hfind (by rw [hidx]; exact hlast)] at hres
      cases hres
    · intro hlast
      have := resolveStart_of_pre _ _ hfind (by rw [hidx]; exact hlast)
      rw [hcast] at this
      exact this
  · intro hlast
    have hres := resolveStart_of_not_pre _ _ hfind (by rw [hidx]; exact hlast)
    rw [fileStep_eq_locate, locateFragment_skip_of_resolve_none _ hres]

/-- C10 (witness): a stripped content with the marker at offset 0 ending in
an opening brace resolves to extraction start -1, and one ending in a
closing brace yields neither a match nor an error. -/
theorem claim_C10_witness :
    resolveStart (stripWs "\"mcpServers\":\x7b".data) = some (-1) ∧
    fileStep "repo" "f.md" "\"mcpServers\":\x7b\x7d".data ⟨none, none⟩ =
      (⟨none, none⟩, false) :=
  ⟨(claim_C10_negative_index "repo" "f.md" "\"mcpServers\":\x7b".data (by rfl)).1.mpr (by rfl),
    (claim_C10_negative_index "repo" "f.md" "\"mcpServers\":\x7b\x7d".data (by rfl)).2
      (by decide)⟩

/-- C3: whenever the marker is found, the preceding character is an opening
brace, and from the shifted extraction start the running brace count never
returns to zero before the end of the stripped content, the scan returns
the unclosed-bracket ScanError with exactly the documented message, the
file path, and the partial stripped substring from the start to the end of
the content; it neither crashes nor returns a success value. -/
theorem claim_C3_unclosed_error (repoPath filePath : String) (content : List Char) (k : Nat)
    (hfind : findStart (stripWs content) = some k)
    (hpre : pyIndex (stripWs content) ((k : Int) - 1) = some '\x7b')
    (hrun : ∀ i, i ≤ ((stripWs content).drop k).length →
      1 + bal (((stripWs content).drop k).take i) ≠ 0) :
    scan_repo_for_mcp_composition repoPath [[(filePath, content)]] =
      (none, some ⟨"Malformed JSON: Unclosed brackets in file".data, some filePath,
        some (pySliceFrom (stripWs content) ((k : Int) - 1)), some repoPath⟩) := by
  have hres := resolveStart_of_pre _ _ hfind hpre
  have hcm := containsMarker_of_findStart _ _ hfind
  have hloop : braceLoop (stripWs content) ((k : Int) - 1) 1 0 = none := by
    rw [braceLoop_eq_scanSteps _ _ _ _ (by omega)]
    have ht : ((k : Int) - 1 + 1).toNat = k := by omega
    rw [ht]
    rw [scanSteps_of_no_zero _ _ ?_]
    · rfl
    · intro p hp
      have hlen := hp.length_le
      rw [List.prefix_iff_eq_take.mp hp]
      have := hrun p.length hlen
      simpa using this
  have hl : locateFragment (stripWs content) =
      .unclosed (pySliceFrom (stripWs content) ((k : Int) - 1)) := by
    unfold locateFragment
    simp [hcm, hres, hloop]
  rw [scan_single, fileStep_eq_locate, hl]

/-- C3 (witness): a concrete truncated file triggers the unclosed-bracket
error with the partial fragment. -/
theorem claim_C3_witness :
    scan_repo_for_mcp_composition "repo" [[("f.md", "\x7b\"mcpServers\":\x7b".data)]] =
      (none, some ⟨"Malformed JSON: Unclosed brackets in file".data, some "f.md",
        some (pySliceFrom (stripWs "\x7b\"mcpServers\":\x7b".data) ((1 : Int) - 1)),
        some "repo"⟩) :=
  claim_C3_unclosed_error "repo" "f.md" "\x7b\"mcpServers\":\x7b".data 1 (by rfl) (by rfl)
    (by decide)

/-- C2: evaluation of the scanner at the scenario inputs.  Scenario A (the
plain composition object) succeeds end to end with the expected
RuntimeInfo; scenario B, the same object with a trailing comma after the
last key inside `env`, is NOT repaired: `json.loads` rejects a trailing
comma, the raw-literal reinterpretation returns the same text, and the
reparse fails again, so the scan returns a parse-failure ScanError instead
of the same successful result as scenario A.  This contradicts the claim
(and the repository's own tests in `tests/test_invalid_mcp_json.py`, which
assert that the scan succeeds after repair), exhibiting the missing
trailing-comma/comment preprocessing as a code bug. -/
theorem claim_C2_trailing_comma_not_repaired :
    scan_repo_for_mcp_composition "repo"
      [[("config.md",
        "\x7b\"mcpServers\":\x7b\"memory\":\x7b\"command\":\"npx\",\"args\":[\"-y\",\"pkg\"]\x7d\x7d\x7d".data)]] =
      (some (Json.obj [("mcpServers".data, Json.obj [("memory".data, Json.obj
        [("command".data, Json.str "npx".data),
         ("args".data, Json.arr [Json.str "-y".data, Json.str "pkg".data])])])]), none) ∧
    get_composition_info (Json.obj [("mcpServers".data, Json.obj [("memory".data, Json.obj
        [("command".data, Json.str "npx".data),
         ("args".data, Json.arr [Json.str "-y".data, Json.str "pkg".data])])])]) =
      (some ⟨"memory".data, "npx".data, Json.str "npx".data,
        Json.arr [Json.str "-y".data, Json.str "pkg".data]⟩, none) ∧
    scan_repo_for_mcp_composition "repo"
      [[("config.md",
        "\x7b\"mcpServers\":\x7b\"memory\":\x7b\"command\":\"npx\",\"args\":[\"-y\",\"pkg\"],\"env\":\x7b\"OUT\":\"file\",\x7d\x7d\x7d\x7d".data)]] =
      (none, some ⟨("Failed to parse MCP composition JSON: ".data ++
          "Expecting property name enclosed in double quotes".data),
        some "config.md",
        some "\x7b\"mcpServers\":\x7b\"memory\":\x7b\"command\":\"npx\",\"args\":[\"-y\",\"pkg\"],\"env\":\x7b\"OUT\":\"file\",\x7d\x7d\x7d\x7d".data,
        some "repo"⟩) :=
  ⟨rfl, rfl, rfl⟩

lemma bal_append (u v : List Char) : bal (u ++ v) = bal u + bal v := by
  induction u with
  | nil => simp [bal]
  | cons c t ih => simp [bal, ih]; ring

/-- C4 (counterexample): for the synthetic input built with `n = 2`
(empty prefix and suffix, marker body `"mcpServers":` + open-close pair),
the Locator does not return the constructed span: it returns only the
innermost enclosing object, one brace pair short of the constructed
two-brace span. -/
theorem claim_C4_counterexample :
    locateFragment "\x7b\x7b\"mcpServers\":\x7b\x7d\x7d\x7d".data =
      .found "\x7b\"mcpServers\":\x7b\x7d\x7d".data ∧
    "\x7b\"mcpServers\":\x7b\x7d\x7d".data ≠ "\x7b\x7b\"mcpServers\":\x7b\x7d\x7d\x7d".data :=
  ⟨rfl, by decide⟩

/-- C4 (amended): for every synthetic input
`prefix ++ n opening braces ++ body ++ n closing braces ++ suffix` with
`n ≥ 1`, a well-nested brace-balanced body, and the marker search resolving
to the constructed position, the Locator returns the innermost enclosing
span: one opening brace, the body, and one closing brace — a substring with
exactly balanced braces; for `n ≥ 2` this span excludes the outer
`n - 1` brace pairs of the constructed span. -/
theorem claim_C4_amended (pre body suf : List Char) (n : Nat) (hn : 1 ≤ n)
    (hfind : findStart
        (pre ++ List.replicate n '\x7b' ++ body ++ List.replicate n '\x7d' ++ suf) =
      some (pre.length + n))
    (hnest : ∀ i, i ≤ body.length → 0 ≤ bal (body.take i)) (hbal : bal body = 0) :
    locateFragment (pre ++ List.replicate n '\x7b' ++ body ++ List.replicate n '\x7d' ++ suf) =
      .found ('\x7b' :: (body ++ ['\x7d'])) ∧
    bal ('\x7b' :: (body ++ ['\x7d'])) = 0 := by
  obtain ⟨m, rfl⟩ : ∃ m, n = m + 1 := ⟨n - 1, by omega⟩
  have hbalSpan : bal ('\x7b' :: (body ++ ['\x7d'])) = 0 := by
    have h1 : delta '\x7b' = 1 := by decide
    have h2 : delta '\x7d' = -1 := by decide
    simp [bal, bal_append, hbal, h1, h2]
  refine ⟨?_, hbalSpan⟩
  have hnest' : ∀ p, p <+: body → 0 ≤ bal p := by
    intro p hp
    rw [List.prefix_iff_eq_take.mp hp]
    exact hnest p.length hp.length_le
  have hrep1 : List.replicate (m + 1) '\x7b' = List.replicate m '\x7b' ++ ['\x7b'] :=
    List.replicate_succ' ..
  have hrep2 : List.replicate (m + 1) '\x7d' = '\x7d' :: List.replicate m '\x7d' :=
    List.replicate_succ ..
  have hsA : pre ++ List.replicate (m + 1) '\x7b' ++ body ++
      List.replicate (m + 1) '\x7d' ++ suf =
      (pre ++ List.replicate m '\x7b') ++
        ('\x7b' :: (body ++ ('\x7d' :: (List.replicate m '\x7d' ++ suf)))) := by
    rw [hrep1, hrep2]
    simp [List.append_assoc]
  have hsB : pre ++ List.replicate (m + 1) '\x7b' ++ body ++
      List.replicate (m + 1) '\x7d' ++ suf =
      (pre ++ List.replicate (m + 1) '\x7b') ++
        (body ++ ('\x7d' :: (List.replicate m '\x7d' ++ suf))) := by
    rw [hrep2]
    simp [List.append_assoc]
  have hsC : pre ++ List.replicate (m + 1) '\x7b' ++ body ++
      List.replicate (m + 1) '\x7d' ++ suf =
      ((pre ++ List.replicate m '\x7b') ++ ('\x7b' :: (body ++ ['\x7d']))) ++
        (List.replicate m '\x7d' ++ suf) := by
    rw [hrep1, hrep2]
    simp [List.append_assoc]
  have hpre : pyIndex
      (pre ++ List.replicate (m + 1) '\x7b' ++ body ++ List.replicate (m + 1) '\x7d' ++ suf)
      ((↑(pre.length + (m + 1)) : Int) - 1) = some '\x7b' := by
    have h1 : ((↑(pre.length + (m + 1)) : Int) - 1) = ((pre.length + m : Nat) : Int) := by
      push_cast; ring
    rw [h1]
    unfold pyIndex
    rw [if_neg (by omega : ¬(((pre.length + m : Nat) : Int) < 0))]
    rw [Int.toNat_natCast, List.get?_eq_getElem?, hsA]
    rw [List.getElem?_append_right (by simp : (pre ++ List.replicate m '\x7b').length ≤
      pre.length + m)]
    simp
  have hres := resolveStart_of_pre _ _ hfind hpre
  have hcm := containsMarker_of_findStart _ _ hfind
  have hdrop : (pre ++ List.replicate (m + 1) '\x7b' ++ body ++
      List.replicate (m + 1) '\x7d' ++ suf).drop
        ((↑(pre.length + (m + 1)) : Int) - 1 + 1).toNat =
      body ++ ('\x7d' :: (List.replicate m '\x7d' ++ suf)) := by
    have h1 : ((↑(pre.length + (m + 1)) : Int) - 1 + 1).toNat = pre.length + (m + 1) := by
      omega
    rw [h1, hsB, List.drop_left' (by simp)]
  have hloop : braceLoop
      (pre ++ List.replicate (m + 1) '\x7b' ++ body ++ List.replicate (m + 1) '\x7d' ++ suf)
      ((↑(pre.length + (m + 1)) : Int) - 1) 1 0 =
      some ((↑(pre.length + (m + 1)) : Int) + ↑body.length) := by
    rw [braceLoop_eq_scanSteps _ _ _ _ (by omega), hdrop]
    rw [scanSteps_append body _ (1 - 0) ?_]
    · rw [scanSteps]
      have hb1 : (1 : Int) - 0 + bal body ≠ 0 := by rw [hbal]; norm_num
      rw [if_neg hb1]
      have hd : (1 : Int) - 0 + bal body + delta '\x7d' = 0 := by
        have h2 : delta '\x7d' = -1 := by decide
        rw [hbal, h2]; norm_num
      rw [hd, scanSteps_zero]
      simp
      omega
    · intro p hp hne
      have := hnest' p hp
      omega
  have hfrag : pySlice
      (pre ++ List.replicate (m + 1) '\x7b' ++ body ++ List.replicate (m + 1) '\x7d' ++ suf)
      ((↑(pre.length + (m + 1)) : Int) - 1)
      ((↑(pre.length + (m + 1)) : Int) + ↑body.length + 1) =
      '\x7b' :: (body ++ ['\x7d']) := by
    unfold pySlice pyBound
    have hlen : (pre ++ List.replicate (m + 1) '\x7b' ++ body ++
        List.replicate (m + 1) '\x7d' ++ suf).length =
        pre.length + (m + 1) + body.length + ((m + 1) + suf.length) := by
      simp [List.length_append]
      ring
    rw [if_neg (by omega : ¬(((↑(pre.length + (m + 1)) : Int) + ↑body.length + 1) < 0))]
    rw [if_neg (by omega : ¬(((↑(pre.length + (m + 1)) : Int) - 1) < 0))]
    rw [hlen]
    have hb : min ((↑(pre.length + (m + 1)) : Int) + ↑body.length + 1).toNat
        (pre.length + (m + 1) + body.length + ((m + 1) + suf.length)) =
        pre.length + (m + 1) + body.length + 1 := by
      omega
    have ha : min ((↑(pre.length + (m + 1)) : Int) - 1).toNat
        (pre.length + (m + 1) + body.length + ((m + 1) + suf.length)) =
        pre.length + m := by
      omega
    have htake : ((pre ++ List.replicate m '\x7b') ++
        ('\x7b' :: (body ++ ['\x7d']))).length =
        pre.length + (m + 1) + body.length + 1 := by
      simp
      omega
    have hdropP : (pre ++ List.replicate m '\x7b').length = pre.length + m := by simp
    rw [hb, ha, hsC, List.take_left' htake]
    exact List.drop_left' hdropP
  unfold locateFragment
  rw [hcm]
  simp only [if_true]
  rw [hres]
  dsimp only
  rw [hloop]
  dsimp only
  rw [hfrag]

/-- C4 (witness): the amended theorem at a concrete synthetic input with
`n = 1`, a one-character prefix and suffix, and the scenario body. -/
theorem claim_C4_witness :
    locateFragment ("x".data ++ List.replicate 1 '\x7b' ++ "\"mcpServers\":\x7b\x7d".data ++
        List.replicate 1 '\x7d' ++ "y".data) =
      .found ('\x7b' :: ("\"mcpServers\":\x7b\x7d".data ++ ['\x7d'])) ∧
    bal ('\x7b' :: ("\"mcpServers\":\x7b\x7d".data ++ ['\x7d'])) = 0 :=
  claim_C4_amended "x".data "\"mcpServers\":\x7b\x7d".data "y".data 1 (by norm_num)
    (by decide) (by decide) (by decide)

lemma dirFold_cons (r p : String) (c : List Char) (rest : List (String × List Char))
    (st : ScanState) :
    dirFold r ((p, c) :: rest) st =
      (match fileStep r p c st with
        | (st2, true) => st2
        | (st2, false) => dirFold r rest st2) := rfl

lemma walkFold_cons (r : String) (d : List (String × List Char))
    (ds : List (List (String × List Char))) (st : ScanState) :
    walkFold r (d :: ds) st =
      if ((dirFold r d st).comp.isSome || (dirFold r d st).err.isSome) = true
      then dirFold r d st else walkFold r ds (dirFold r d st) := rfl

/-- C9 (counterexample): in a directory whose first two files both contain
a marker with unclosed brackets, the first file already produces the
unclosed-bracket ScanError, yet the second file is still examined — its
error overwrites the first, so the final error names the second file, not
the first.  The per-file break at analyze.py:491 sits inside
`if error_details is None:`, so the unclosed-bracket path does not stop the
file loop. -/
theorem claim_C9_counterexample :
    fileStep "repo" "a.md" "\x7b\"mcpServers\":\x7b".data ⟨none, none⟩ =
      (⟨none, some ⟨"Malformed JSON: Unclosed brackets in file".data, some "a.md",
        some "\x7b\"mcpServers\":\x7b".data, some "repo"⟩⟩, false) ∧
    scan_repo_for_mcp_composition "repo"
      [[("a.md", "\x7b\"mcpServers\":\x7b".data), ("b.md", "\x7b\"mcpServers\":\x7b".data)]] =
      (none, some ⟨"Malformed JSON: Unclosed brackets in file".data, some "b.md",
        some "\x7b\"mcpServers\":\x7b".data, some "repo"⟩) :=
  ⟨rfl, rfl⟩

/-- C9 (amended): files with no marker are silently skipped without
affecting the outcome; once a file produces a successful composition or a
parse-failure ScanError the file loop breaks and nothing later is
examined; and once a directory ends with any composition or error set, no
further directories are visited.  (After an unclosed-bracket ScanError,
however, the remaining files of the same directory are still examined and
a later unclosed-bracket file overwrites the error — the counterexample.) -/
theorem claim_C9_amended :
    (∀ (r p : String) (c : List Char) rest ds, containsMarker (stripWs c) = false →
      scan_repo_for_mcp_composition r (((p, c) :: rest) :: ds) =
        scan_repo_for_mcp_composition r (rest :: ds)) ∧
    (∀ (r p : String) (c : List Char) (st2 : ScanState) rest ds,
      fileStep r p c ⟨none, none⟩ = (st2, true) →
      scan_repo_for_mcp_composition r (((p, c) :: rest) :: ds) = (st2.comp, st2.err)) ∧
    (∀ (r : String) d ds,
      ((dirFold r d ⟨none, none⟩).comp.isSome || (dirFold r d ⟨none, none⟩).err.isSome) =
        true →
      scan_repo_for_mcp_composition r (d :: ds) = scan_repo_for_mcp_composition r [d]) := by
  refine ⟨?_, ?_, ?_⟩
  · intro r p c rest ds hm
    have hstep : fileStep r p c ⟨none, none⟩ = (⟨none, none⟩, false) := by
      rw [fileStep_eq_locate]
      have hl : locateFragment (stripWs c) = .skip := by
        unfold locateFragment
        rw [hm]
        simp
      rw [hl]
    have hdir : dirFold r ((p, c) :: rest) ⟨none, none⟩ = dirFold r rest ⟨none, none⟩ := by
      rw [dirFold_cons, hstep]
    unfold scan_repo_for_mcp_composition
    rw [walkFold_cons, walkFold_cons, hdir]
  · intro r p c st2 rest ds hstep
    have hsome := fileStep_break_some r p c _ _ hstep
    have hcond : (st2.comp.isSome || st2.err.isSome) = true := by
      rcases hsome with h | h <;> simp [h]
    unfold scan_repo_for_mcp_composition
    rw [walkFold_cons, dirFold_cons, hstep]
    dsimp only
    rw [if_pos hcond]
  · intro r d ds hcond
    unfold scan_repo_for_mcp_composition
    rw [walkFold_cons, walkFold_cons]
    rw [if_pos hcond, if_pos hcond]

/-- C9 (witness): scenario D — in a directory whose first file has no
marker and whose second file carries the composition, the match of the
second file is returned and the first file causes no error. -/
theorem claim_C9_witness :
    scan_repo_for_mcp_composition "repo"
      [[("first.md", "no marker here".data),
        ("second.md",
          "\x7b\"mcpServers\":\x7b\"memory\":\x7b\"command\":\"npx\",\"args\":[\"-y\",\"pkg\"]\x7d\x7d\x7d".data)]] =
      (some (Json.obj [("mcpServers".data, Json.obj [("memory".data, Json.obj
        [("command".data, Json.str "npx".data),
         ("args".data, Json.arr [Json.str "-y".data, Json.str "pkg".data])])])]), none) := by
  rw [claim_C9_amended.1 "repo" "first.md" "no marker here".data _ _ (by rfl)]
  rfl

/-- C5: when the strict parse of the located fragment fails and the
raw-literal reinterpretation path also fails, the scan returns a ScanError
whose error message is the fixed prefix followed by the second attempt's
diagnostic (so it contains the underlying parser diagnostic as a suffix),
whose filename is the source file, and whose json_config is the original
full file content, not the stripped fragment. -/
theorem claim_C5_parse_failure (repoPath filePath : String) (content frag m1 m2 : List Char)
    (hloc : locateFragment (stripWs content) = .found frag)
    (_hstrict : json_loads frag = .error m1)
    (hp : parseFragment frag = .error m2) :
    scan_repo_for_mcp_composition repoPath [[(filePath, content)]] =
      (none, some ⟨"Failed to parse MCP composition JSON: ".data ++ m2, some filePath,
        some content, some repoPath⟩) ∧
    m2 <:+ "Failed to parse MCP composition JSON: ".data ++ m2 := by
  refine ⟨?_, List.suffix_append ..⟩
  rw [scan_single, fileStep_eq_locate, hloc]
  dsimp only
  rw [if_pos rfl, hp]

/-- C5 (witness): a concrete fragment (trailing comma) on which both parse
attempts fail, yielding the parse-failure error carrying the original
content. -/
theorem claim_C5_witness :
    scan_repo_for_mcp_composition "repo" [[("f.md", "\x7b\"mcpServers\":\x7b\"a\":1,\x7d\x7d".data)]] =
      (none, some ⟨"Failed to parse MCP composition JSON: ".data ++
        "Expecting property name enclosed in double quotes".data, some "f.md",
        some "\x7b\"mcpServers\":\x7b\"a\":1,\x7d\x7d".data, some "repo"⟩) ∧
    "Expecting property name enclosed in double quotes".data <:+
      "Failed to parse MCP composition JSON: ".data ++
        "Expecting property name enclosed in double quotes".data :=
  claim_C5_parse_failure "repo" "f.md" "\x7b\"mcpServers\":\x7b\"a\":1,\x7d\x7d".data
    "\x7b\"mcpServers\":\x7b\"a\":1,\x7d\x7d".data
    "Expecting property name enclosed in double quotes".data
    "Expecting property name enclosed in double quotes".data
    (by rfl) (by rfl) (by rfl)

lemma serverType_eq_classify (cmd : List Char) :
    (if ['u', 'v'] <:+ cmd then ['u', 'v']
     else if jsonEqb (Json.str cmd) (Json.str ['n', 'p', 'x']) = true then ['n', 'p', 'x']
     else ['u', 'n', 'k', 'n', 'o', 'w', 'n']) = classifySpec cmd := by
  unfold classifySpec
  by_cases huv : ['u', 'v'] <:+ cmd <;> by_cases hnpx : cmd = ['n', 'p', 'x'] <;>
    simp [jsonEqb, huv, hnpx, String.data]

/-- C6: the three shape errors of `get_composition_info` are distinguished:
a falsy input yields the empty-composition message with no json_config; a
non-empty object without the `mcpServers` key yields the missing-key
message with the pretty-printed input; an object whose `mcpServers` value
is an empty mapping yields the no-servers message with the pretty-printed
input; the empty object and `other: 1` produce distinct messages; and in
every shape-error case the success slot is empty. -/
theorem claim_C6_shape_errors :
    (∀ comp : Json, pyFalsy comp = true →
      get_composition_info comp =
        (none, some ⟨"Empty composition provided".data, none, none, none⟩)) ∧
    (∀ kvs : List (List Char × Json), kvs ≠ [] →
      lookupKey kvs "mcpServers".data = none →
      get_composition_info (.obj kvs) =
        (none, some ⟨"Missing 'mcpServers' key in composition".data, none,
          some (jsonDumps2 (.obj kvs)), none⟩)) ∧
    (∀ kvs : List (List Char × Json),
      lookupKey kvs "mcpServers".data = some (.obj []) →
      get_composition_info (.obj kvs) =
        (none, some ⟨"No servers found in 'mcpServers' object".data, none,
          some (jsonDumps2 (.obj kvs)), none⟩)) ∧
    (get_composition_info (Json.obj []) =
      (none, some ⟨"Empty composition provided".data, none, none, none⟩) ∧
     get_composition_info (Json.obj [("other".data, Json.num 1)]) =
      (none, some ⟨"Missing 'mcpServers' key in composition".data, none,
        some (jsonDumps2 (Json.obj [("other".data, Json.num 1)])), none⟩) ∧
     "Empty composition provided".data ≠ "Missing 'mcpServers' key in composition".data) := by
  refine ⟨?_, ?_, ?_, rfl, rfl, by decide⟩
  · intro comp h
    simp [get_composition_info, get_composition_info_body, h]
  · intro kvs hne hlk
    have hf : pyFalsy (.obj kvs) = false := by
      simp [pyFalsy, List.isEmpty_eq_false]
      exact hne
    simp [get_composition_info, get_composition_info_body, hf, pyIn, hlk]
  · intro kvs hlk
    have hne : kvs ≠ [] := by
      intro h
      rw [h] at hlk
      simp [lookupKey] at hlk
    have hf : pyFalsy (.obj kvs) = false := by
      simp [pyFalsy, List.isEmpty_eq_false]
      exact hne
    simp [get_composition_info, get_composition_info_body, hf, pyIn, pySubscript, hlk]

/-- C6 (witness): the missing-key shape error at the concrete input
`other: 1`. -/
theorem claim_C6_witness :
    get_composition_info (Json.obj [("other".data, Json.num 1)]) =
      (none, some ⟨"Missing 'mcpServers' key in composition".data, none,
        some (jsonDumps2 (Json.obj [("other".data, Json.num 1)])), none⟩) :=
  claim_C6_shape_errors.2.1 [("other".data, Json.num 1)] (by simp) (by rfl)

/-- C7: for a composition whose `mcpServers` mapping is non-empty and whose
first entry is a well-formed server spec, `get_composition_info` succeeds
with the first entry's name (whatever later entries exist), its command
(empty string when absent), its args (empty sequence when absent), and the
runtime classification of the claim: "uv" iff the command ends with "uv",
"npx" iff it is exactly "npx", "unknown" otherwise. -/
theorem claim_C7_first_entry (kvs spec rest : List (List Char × Json))
    (serverName cmd : List Char)
    (hlook : lookupKey kvs "mcpServers".data = some (.obj ((serverName, .obj spec) :: rest)))
    (hcmd : lookupKey spec "command".data = some (.str cmd) ∨
      (lookupKey spec "command".data = none ∧ cmd = [])) :
    get_composition_info (.obj kvs) =
      (some ⟨serverName, classifySpec cmd, .str cmd,
        (lookupKey spec "args".data).getD (.arr [])⟩, none) ∧
    (classifySpec cmd = "uv".data ↔ "uv".data.isSuffixOf cmd = true) ∧
    (classifySpec cmd = "npx".data ↔ cmd = "npx".data) ∧
    (classifySpec cmd = "unknown".data ↔
      ("uv".data.isSuffixOf cmd = false ∧ cmd ≠ "npx".data)) := by
  refine ⟨?_, ?_, ?_, ?_⟩
  · have hne : kvs ≠ [] := by
      intro h
      rw [h] at hlook
      simp [lookupKey] at hlook
    have hf : pyFalsy (.obj kvs) = false := by
      simp [pyFalsy, List.isEmpty_eq_false]
      exact hne
    have hcmdv : (lookupKey spec "command".data).getD (Json.str []) = .str cmd := by
      rcases hcmd with h | ⟨h, rfl⟩ <;> simp [h]
    simp [get_composition_info, get_composition_info_body, hf, pyIn, pySubscript, hlook,
      pyDictGet, hcmdv, pyEndswith]
    exact serverType_eq_classify cmd
  · by_cases huv : "uv".data.isSuffixOf cmd
    · simp [classifySpec, huv]
    · by_cases hnpx : cmd = "npx".data
      · simp [classifySpec, huv, hnpx]
      · simp [classifySpec, huv, hnpx]
  · by_cases huv : "uv".data.isSuffixOf cmd
    · simp [classifySpec, huv]
      intro h
      rw [h] at huv
      exact absurd huv (by decide)
    · by_cases hnpx : cmd = "npx".data
      · simp [classifySpec, huv, hnpx]
        decide
      · simp [classifySpec, huv, hnpx]
  · by_cases huv : "uv".data.isSuffixOf cmd
    · simp [classifySpec, huv]
    · by_cases hnpx : cmd = "npx".data
      · simp [classifySpec, huv, hnpx]
        decide
      · simp [classifySpec, huv, hnpx]

/-- C7 (witness): a two-server composition in insertion order: the first
entry wins, its command "npx" classifies as "npx". -/
theorem claim_C7_witness :
    get_composition_info (Json.obj [("mcpServers".data, Json.obj
      [("memory".data, Json.obj [("command".data, Json.str "npx".data),
        ("args".data, Json.arr [Json.str "-y".data, Json.str "pkg".data])]),
       ("later".data, Json.obj [("command".data, Json.str "/usr/local/bin/uv".data)])])]) =
      (some ⟨"memory".data, classifySpec "npx".data, Json.str "npx".data,
        (lookupKey [("command".data, Json.str "npx".data),
          ("args".data, Json.arr [Json.str "-y".data, Json.str "pkg".data])]
          "args".data).getD (.arr [])⟩, none) :=
  (claim_C7_first_entry _ _ _ _ _ (by rfl) (Or.inl (by rfl))).1

lemma body_ok_shapes (comp : Json) (r : Option RuntimeInfo × Option ScanError)
    (h : get_composition_info_body comp = .ok r) :
    (∃ info, r = (some info, none)) ∨
    (∃ err, r = (none, some err) ∧
      (err.error_message = "Empty composition provided".data ∨
       err.error_message = "Missing 'mcpServers' key in composition".data ∨
       err.error_message = "No servers found in 'mcpServers' object".data)) := by
  unfold get_composition_info_body at h
  repeat' split at h
  all_goals try exact Except.noConfusion h
  all_goals cases h
  all_goals first
    | (left; exact ⟨_, rfl⟩)
    | (right; exact ⟨_, rfl, Or.inl rfl⟩)
    | (right; exact ⟨_, rfl, Or.inr (Or.inl rfl)⟩)
    | (right; exact ⟨_, rfl, Or.inr (Or.inr rfl)⟩)

/-- C8: for every input value, `get_composition_info` returns a
(result, error) pair whose failure side is always one of the typed shapes:
the three shape-error messages, or the exception conversion
"Exception analyzing composition: " followed by the fault's message with
json_config the pretty-printed input (or "None" for a falsy input) — no
raw fault propagates past the Interpreter's boundary, which in this
embedding is witnessed by every exceptional path of the body being mapped
to this typed error value. -/
theorem claim_C8_never_raises (comp : Json) :
    (∃ info, get_composition_info comp = (some info, none)) ∨
    (∃ err, get_composition_info comp = (none, some err) ∧
      (err.error_message = "Empty composition provided".data ∨
       err.error_message = "Missing 'mcpServers' key in composition".data ∨
       err.error_message = "No servers found in 'mcpServers' object".data ∨
       ∃ m, err.error_message = "Exception analyzing composition: ".data ++ m ∧
         err.json_config = some (if pyFalsy comp then "None".data else jsonDumps2 comp))) := by
  unfold get_composition_info
  cases hb : get_composition_info_body comp with
  | error m =>
    right
    exact ⟨_, rfl, Or.inr (Or.inr (Or.inr ⟨m, rfl, rfl⟩))⟩
  | ok r =>
    rcases body_ok_shapes comp r hb with ⟨info, rfl⟩ | ⟨err, rfl, hmsg⟩
    · left
      exact ⟨info, rfl⟩
    · right
      refine ⟨err, rfl, ?_⟩
      rcases hmsg with h | h | h
      · exact Or.inl h
      · exact Or.inr (Or.inl h)
      · exact Or.inr (Or.inr (Or.inl h))
